import Mathlib

set_option maxHeartbeats 1000000

/- Shallow embedding of the ghmgr migration tool (src/main.go) and proofs
about the behavior of its pipeline: configuration loading, repository
listing and filtering, the per repository loop with its create, clone and
push, content update and archive steps. -/

namespace Ghmgr

/-- A remote repository descriptor: the fields of the go-github Repository
value that main.go reads after dereferencing the pointer fields
(Name, Description, Homepage, Private, SSHURL, HTMLURL). -/
structure Repository where
  Name : String
  Description : String
  Homepage : String
  Private : Bool
  SSHURL : String
  HTMLURL : String
deriving DecidableEq, Inhabited

/-- Content update settings nested under Source in the configuration
(main.go lines 33 to 36). -/
structure ContentSpec where
  Path : String
  Message : String
deriving DecidableEq, Inhabited

/-- The Source section of the configuration (main.go lines 26 to 37). The
live client handle attached after loading is not configuration data; the
remote calls it serves are the Env record below. -/
structure SourceConfig where
  URL : String
  Token : String
  Organization : String
  Ignore : List String
  Archive : Bool
  Content : ContentSpec
deriving DecidableEq, Inhabited

/-- The Target section of the configuration (main.go lines 38 to 43). -/
structure TargetConfig where
  URL : String
  Token : String
  Organization : String
deriving DecidableEq, Inhabited

/-- The Git section of the configuration (main.go lines 44 to 50). -/
structure GitSettings where
  ClonePath : String
  RemoteName : String
  CrtFile : String
  Author : String
  Email : String
deriving DecidableEq, Inhabited

/-- The whole configuration (main.go lines 25 to 51); the Inhabited
default is the Go zero value: empty strings, empty list, false. -/
structure Configuration where
  Source : SourceConfig
  Target : TargetConfig
  Git : GitSettings
deriving DecidableEq, Inhabited

/-- One pass of Go strings.Replace with n = -1 over the character list of
the subject, consuming at least one character per step when the pattern
is nonempty; the fuel argument bounds the recursion and is instantiated
with the length of the subject, which the scan never exceeds. -/
def replaceFuel (pat repl : List Char) : Nat → List Char → List Char
  | 0, s => s
  | _ + 1, [] => []
  | fuel + 1, c :: rest =>
    if pat.isPrefixOf (c :: rest) then
      repl ++ replaceFuel pat repl fuel (List.drop pat.length (c :: rest))
    else
      c :: replaceFuel pat repl fuel rest

/-- Go strings.Replace(s, old, new, -1): every non overlapping occurrence
of old in s is replaced by new, scanning left to right; an empty old
inserts new before and after every character, as in Go. -/
def stringsReplace (s old new : String) : String :=
  if old.isEmpty then
    ⟨new.data ++ s.data.flatMap (fun c => c :: new.data)⟩
  else
    ⟨replaceFuel old.data new.data s.data.length s.data⟩

/-- The message rendering and body composition of updateContent (main.go
lines 262 and 266): the placeholder is replaced by the given HTML URL in
the configured template, and the rendered message is joined to the
original content with the literal text of two HTML break tags by
fmt.Sprintf. -/
def newFileContent (template url original : String) : String :=
  let newMessage := stringsReplace template "\x7b\x7burl\x7d\x7d" url
  newMessage ++ "<br><br>" ++ original

/-- The composition as the specification words it: the rendered message,
a double line break forming a blank line, then the original content.
Stated only to compare against newFileContent. -/
def specNewFileContent (template url original : String) : String :=
  stringsReplace template "\x7b\x7burl\x7d\x7d" url ++ "\n\n" ++ original

/-- The content object returned by GetContents: the GetContent field
models the result of the c.GetContent() decoding call, SHA the value of
c.GetSHA(). -/
structure RepositoryContent where
  GetContent : Except String String
  SHA : String

/-- The options value passed to UpdateFile by updateContent (main.go
lines 264 to 269). -/
structure RepositoryContentFileOptions where
  Message : String
  Content : String
  SHA : String
  CommitterName : String
  CommitterEmail : String
deriving DecidableEq

/-- The options value passed to Edit by archiveRepo (main.go lines 283
to 285). -/
structure RepoEditOpts where
  Archived : Bool
deriving DecidableEq

/-- The options value passed to Create by createRepo (main.go lines 182
to 192). -/
structure RepoCreateOpts where
  Name : String
  Description : String
  Homepage : String
  Private : Bool
  HasIssues : Bool
  HasProjects : Bool
  HasWiki : Bool
  AllowRebaseMerge : Bool
  AllowSquashMerge : Bool
deriving DecidableEq

/-- The remote collaborators of one run: the results of the GitHub API
calls and of the git clone and push sequence. The argument lists mirror
the call sites in main.go; cloneAndPush abstracts the three step git
sequence of main.go lines 204 to 244 (key load, bare clone, remote
registration, push), whose first failure is returned. -/
structure Env where
  create : String → RepoCreateOpts → Except String Repository
  cloneAndPush : Repository → String → Except String Unit
  getContents : String → String → String → Except String RepositoryContent
  updateFile : String → String → String → RepositoryContentFileOptions → Except String Unit
  edit : String → String → RepoEditOpts → Except String Unit

/-- Observable actions of a run: the remote calls made and the errors
logged. -/
inductive Event where
  | createCalled (name : String)
  | cloneCalled (name : String)
  | getContentsCalled (name : String)
  | updateFileCalled (name : String) (content : String)
  | archiveCalled (name : String)
  | errorLogged (e : String)
  | fatalLogged (e : String)
deriving DecidableEq

/-- How one updateContent call ends: ok, an error returned to main, or a
log.Fatal that terminates the process. -/
inductive ContentResult where
  | ok
  | retErr (e : String)
  | fatal (e : String)
deriving DecidableEq

/-- How one iteration of the repository loop ends: the continue
statements, the unconditional break, or process termination through
log.Fatal. -/
inductive RunStatus where
  | cont
  | brk
  | fatalExit (e : String)
deriving DecidableEq

/-- How the whole run ends: a normal exit or a log.Fatal termination. -/
inductive RunOutcome where
  | normal
  | fatalExit (e : String)
deriving DecidableEq

/-- The create options built by createRepo (main.go lines 182 to 192):
name, description, homepage and the private flag are copied from the
source descriptor, the five feature flags are set to false. -/
def createRepoOpts (repo : Repository) : RepoCreateOpts :=
  { Name := repo.Name
    Description := repo.Description
    Homepage := repo.Homepage
    Private := repo.Private
    HasIssues := false
    HasProjects := false
    HasWiki := false
    AllowRebaseMerge := false
    AllowSquashMerge := false }

/-- createRepo (main.go lines 179 to 202): a Create call on the target
organization with the options above; the created descriptor is returned
and an API error is propagated. -/
def createRepo (cfg : Configuration) (env : Env) (repo : Repository) :
    Except String Repository :=
  env.create cfg.Target.Organization (createRepoOpts repo)

/-- updateContent (main.go lines 246 to 277): fetch the configured file
from the source organization under the given descriptor name, decode it,
compose the new body with newFileContent from the content message
template and the HTML URL of the descriptor, then commit it with
UpdateFile. A GetContents or decode failure is returned to the caller;
an UpdateFile failure is handed to log.Fatal (main.go line 273), which
logs it and terminates the process. -/
def updateContent (cfg : Configuration) (env : Env) (repo : Repository) :
    List Event × ContentResult :=
  match env.getContents cfg.Source.Organization repo.Name cfg.Source.Content.Path with
  | Except.error e => ([Event.getContentsCalled repo.Name], ContentResult.retErr e)
  | Except.ok c =>
    match c.GetContent with
    | Except.error e => ([Event.getContentsCalled repo.Name], ContentResult.retErr e)
    | Except.ok content =>
      let opts : RepositoryContentFileOptions :=
        { Message := "updated " ++ cfg.Source.Content.Path
          Content := newFileContent cfg.Source.Content.Message repo.HTMLURL content
          SHA := c.SHA
          CommitterName := cfg.Git.Author
          CommitterEmail := cfg.Git.Email }
      match env.updateFile cfg.Source.Organization repo.Name cfg.Source.Content.Path opts with
      | Except.error e =>
        ([Event.getContentsCalled repo.Name, Event.updateFileCalled repo.Name opts.Content,
          Event.fatalLogged e], ContentResult.fatal e)
      | Except.ok _ =>
        ([Event.getContentsCalled repo.Name, Event.updateFileCalled repo.Name opts.Content],
         ContentResult.ok)

/-- archiveRepo (main.go lines 279 to 295): an Edit call on the source
organization setting Archived to true; the API error, if any, is
returned to the caller. -/
def archiveRepo (cfg : Configuration) (env : Env) (repo : Repository) :
    List Event × Except String Unit :=
  ([Event.archiveCalled repo.Name],
   env.edit cfg.Source.Organization repo.Name { Archived := true })

/-- One iteration of the loop body of main (main.go lines 107 to 137) on
one candidate: create, clone and push, optional content update, optional
archive. The returned status is cont for the continue statements after a
create or clone failure, brk for the unconditional break at line 137,
and fatalExit when updateContent hit log.Fatal. The value returned by
archiveRepo is discarded at line 131, and the err tested at line 132 is
the clone error of line 117, nil on this path, so an archive failure is
never logged. -/
def processRepo (cfg : Configuration) (env : Env) (repo : Repository) :
    List Event × RunStatus :=
  match createRepo cfg env repo with
  | Except.error e => ([Event.createCalled repo.Name, Event.errorLogged e], RunStatus.cont)
  | Except.ok r =>
    match env.cloneAndPush repo r.SSHURL with
    | Except.error e =>
      ([Event.createCalled repo.Name, Event.cloneCalled repo.Name, Event.errorLogged e],
       RunStatus.cont)
    | Except.ok _ =>
      match (if cfg.Source.Content.Path ≠ "" then updateContent cfg env r
             else ([], ContentResult.ok)) with
      | (evs, ContentResult.fatal e) =>
        ([Event.createCalled repo.Name, Event.cloneCalled repo.Name] ++ evs,
         RunStatus.fatalExit e)
      | (evs, cres) =>
        let logEvs := match cres with
          | ContentResult.retErr e => [Event.errorLogged e]
          | _ => []
        let archiveEvs := if cfg.Source.Archive then (archiveRepo cfg env repo).1 else []
        ([Event.createCalled repo.Name, Event.cloneCalled repo.Name] ++ evs
           ++ logEvs ++ archiveEvs,
         RunStatus.brk)

/-- The repository loop of main (main.go lines 107 to 138) over the
filtered candidate list, in order: cont moves to the next candidate, brk
leaves the loop and the process exits normally, fatalExit models the
process termination of log.Fatal. -/
def mainLoop (cfg : Configuration) (env : Env) : List Repository → List Event × RunOutcome
  | [] => ([], RunOutcome.normal)
  | repo :: rest =>
    match processRepo cfg env repo with
    | (evs, RunStatus.cont) =>
      (evs ++ (mainLoop cfg env rest).1, (mainLoop cfg env rest).2)
    | (evs, RunStatus.brk) => (evs, RunOutcome.normal)
    | (evs, RunStatus.fatalExit e) => (evs, RunOutcome.fatalExit e)

/-- Whether both the create and the clone and push steps succeed for a
candidate: exactly then the loop body runs past both continue statements
and reaches the final break (or a log.Fatal in the content step). -/
def stepSucceeds (cfg : Configuration) (env : Env) (repo : Repository) : Bool :=
  match createRepo cfg env repo with
  | Except.error _ => false
  | Except.ok r =>
    match env.cloneAndPush repo r.SSHURL with
    | Except.error _ => false
    | Except.ok _ => true

/-- contains (main.go lines 141 to 148): a linear scan with exact string
equality. -/
def contains : List String → String → Bool
  | [], _ => false
  | vv :: rest, v => if vv = v then true else contains rest v

/-- The filtering pass of listRepositoriesByOrg (main.go lines 169 to
174): keep, in order, the candidates whose name is not in the ignore
list. -/
def filterRepos (ignore : List String) : List Repository → List Repository
  | [] => []
  | r :: rest =>
    if !(contains ignore r.Name) then r :: filterRepos ignore rest
    else filterRepos ignore rest

/-- The zero valued gh.RepositoryListOptions literal built afresh at the
List call site on every iteration (main.go line 158). -/
structure RepositoryListOptions where
  Page : Nat
  PerPage : Nat
deriving DecidableEq

/-- gh.RepositoryListByOrgOptions as built at main.go lines 152 to 154:
the loop advances its Page field at line 166 but never passes the value
to any call. -/
structure RepositoryListByOrgOptions where
  Page : Nat
  PerPage : Nat
deriving DecidableEq

/-- The pagination field of the API response that the loop inspects. -/
structure APIResponse where
  NextPage : Nat
deriving DecidableEq

/-- The paging loop of listRepositoriesByOrg (main.go lines 156 to 167).
Fuel turns the unbounded Go for loop into a total function: none means
the loop did not finish within the given number of iterations, so a
result that is none at every fuel is a loop that never terminates. Each
iteration calls List with a fresh zero valued RepositoryListOptions
literal (main.go line 158), while opts.Page is advanced at line 166
without opts ever reaching a call. -/
def listLoop
    (fetch : RepositoryListOptions → Except String (List Repository × APIResponse)) :
    RepositoryListByOrgOptions → Nat → List Repository →
      Option (Except String (List Repository))
  | _, 0, _ => none
  | opts, fuel + 1, candidates =>
    match fetch { Page := 0, PerPage := 0 } with
    | Except.error e => some (Except.error e)
    | Except.ok (repos, resp) =>
      if resp.NextPage = 0 then some (Except.ok (candidates ++ repos))
      else listLoop fetch { opts with Page := resp.NextPage } fuel (candidates ++ repos)

/-- listRepositoriesByOrg (main.go lines 150 to 177): run the paging loop
from the PerPage 30 options value, then filter out the ignored names. -/
def listRepositoriesByOrg
    (fetch : RepositoryListOptions → Except String (List Repository × APIResponse))
    (cfg : Configuration) (fuel : Nat) : Option (Except String (List Repository)) :=
  match listLoop fetch { Page := 0, PerPage := 30 } fuel [] with
  | none => none
  | some (Except.error e) => some (Except.error e)
  | some (Except.ok candidates) =>
    some (Except.ok (filterRepos cfg.Source.Ignore candidates))

/-- A well behaved paginated server holding the given pages, one indexed:
a request with Page zero is served the first page, and the response
names the following page or zero after the last one. -/
def pagesFetch (pages : List (List Repository)) (opts : RepositoryListOptions) :
    Except String (List Repository × APIResponse) :=
  let p := if opts.Page = 0 then 1 else opts.Page
  Except.ok (pages.getD (p - 1) [],
    { NextPage := if p < pages.length then p + 1 else 0 })

/-- loadConfiguration (main.go lines 75 to 85) over abstract file and
parser oracles: readFile models ioutil.ReadFile, unmarshal models
yaml.Unmarshal starting from a zero valued Configuration and yields the
filled value together with the parse error, if any. The source discards
the value returned by yaml.Unmarshal (main.go line 82), so only a read
error can surface. -/
def loadConfiguration (readFile : String → Except String String)
    (unmarshal : String → Configuration × Option String)
    (configPath : String) : Except String Configuration :=
  match readFile configPath with
  | Except.error e => Except.error e
  | Except.ok content => Except.ok (unmarshal content).1

/-- Whether an event is a call of the content update or archive sub
steps, the calls that must not happen for a candidate whose clone and
push failed. -/
def isContentOrArchive : Event → Bool
  | Event.getContentsCalled _ => true
  | Event.updateFileCalled _ _ => true
  | Event.archiveCalled _ => true
  | _ => false

/- Concrete fixtures used by the counterexamples and witnesses. -/

/-- A first listing candidate. -/
def repoA : Repository :=
  { Name := "a", Description := "desc a", Homepage := "home a", Private := true,
    SSHURL := "ssh-src-a", HTMLURL := "html-src-a" }

/-- A second listing candidate. -/
def repoB : Repository :=
  { Name := "b", Description := "desc b", Homepage := "home b", Private := false,
    SSHURL := "ssh-src-b", HTMLURL := "html-src-b" }

/-- A third listing candidate, placed after the first successful one. -/
def repoX : Repository :=
  { Name := "x", Description := "desc x", Homepage := "home x", Private := false,
    SSHURL := "ssh-src-x", HTMLURL := "html-src-x" }

/-- The target descriptor the create call answers for repoA. -/
def targetA : Repository :=
  { Name := "a", Description := "desc a", Homepage := "home a", Private := true,
    SSHURL := "ssh-tgt-a", HTMLURL := "https://h/org/a" }

/-- The target descriptor the create call answers for repoB. -/
def targetB : Repository :=
  { Name := "b", Description := "desc b", Homepage := "home b", Private := false,
    SSHURL := "ssh-tgt-b", HTMLURL := "https://h/org/b" }

/-- A configuration with a content path and the archive flag set. -/
def cfgC1 : Configuration where
  Source :=
    { URL := "", Token := "", Organization := "srcorg", Ignore := [], Archive := true,
      Content := { Path := "README.md", Message := "Migrated. \x7b\x7burl\x7d\x7d" } }
  Target := { URL := "", Token := "", Organization := "tgtorg" }
  Git :=
    { ClonePath := "/tmp/clones", RemoteName := "neworigin", CrtFile := "id",
      Author := "au", Email := "em" }

/-- A configuration with no content path and the archive flag unset. -/
def cfgPlain : Configuration where
  Source :=
    { URL := "", Token := "", Organization := "srcorg", Ignore := [], Archive := false,
      Content := { Path := "", Message := "" } }
  Target := { URL := "", Token := "", Organization := "tgtorg" }
  Git :=
    { ClonePath := "/tmp/clones", RemoteName := "neworigin", CrtFile := "id",
      Author := "au", Email := "em" }

/-- A configuration with no content path and the archive flag set. -/
def cfgC6 : Configuration where
  Source :=
    { URL := "", Token := "", Organization := "srcorg", Ignore := [], Archive := true,
      Content := { Path := "", Message := "" } }
  Target := { URL := "", Token := "", Organization := "tgtorg" }
  Git :=
    { ClonePath := "/tmp/clones", RemoteName := "neworigin", CrtFile := "id",
      Author := "au", Email := "em" }

/-- A remote where everything succeeds except the final UpdateFile
commit, which the API rejects. -/
def envC1 : Env where
  create := fun _ _ => Except.ok targetA
  cloneAndPush := fun _ _ => Except.ok ()
  getContents := fun _ _ _ => Except.ok { GetContent := Except.ok "original", SHA := "sha1" }
  updateFile := fun _ _ _ _ => Except.error "commit rejected"
  edit := fun _ _ _ => Except.ok ()

/-- A remote where creating the repository named a fails and every other
call succeeds. -/
def envC2 : Env where
  create := fun _ opts =>
    if opts.Name = "a" then Except.error "name taken" else Except.ok targetB
  cloneAndPush := fun _ _ => Except.ok ()
  getContents := fun _ _ _ => Except.ok { GetContent := Except.ok "original", SHA := "sha1" }
  updateFile := fun _ _ _ _ => Except.ok ()
  edit := fun _ _ _ => Except.ok ()

/-- A remote where the archive Edit call is denied and everything else
succeeds. -/
def envC6 : Env where
  create := fun _ _ => Except.ok targetA
  cloneAndPush := fun _ _ => Except.ok ()
  getContents := fun _ _ _ => Except.ok { GetContent := Except.ok "original", SHA := "sha1" }
  updateFile := fun _ _ _ _ => Except.ok ()
  edit := fun _ _ _ => Except.error "permission denied"

/-- A remote where the clone and push step fails and every API call
succeeds. -/
def envC9 : Env where
  create := fun _ _ => Except.ok targetA
  cloneAndPush := fun _ _ => Except.error "auth failed"
  getContents := fun _ _ _ => Except.ok { GetContent := Except.ok "original", SHA := "sha1" }
  updateFile := fun _ _ _ _ => Except.ok ()
  edit := fun _ _ _ => Except.ok ()

/-- A two page listing: page one holds the repository named a, page two
the one named b. -/
def twoPages : List (List Repository) := [[repoA], [repoB]]

/-- A readable configuration file whose contents are not valid yaml. -/
def readFileC4 : String → Except String String := fun _ => Except.ok "][ not yaml"

/-- A parser that rejects every input, returning the zero valued
configuration together with a parse error. -/
def unmarshalC4 : String → Configuration × Option String :=
  fun _ => (default, some "yaml: did not find expected node content")

/-- An unreadable configuration file. -/
def readFileErrC4 : String → Except String String :=
  fun _ => Except.error "no such file"

/- Helper lemmas shared by the claim theorems. -/

/-- The loop body asks to continue with the next candidate exactly when
the create step or the clone and push step failed. -/
theorem processRepo_cont_iff (cfg : Configuration) (env : Env) (repo : Repository) :
    (processRepo cfg env repo).2 = RunStatus.cont ↔ stepSucceeds cfg env repo = false := by
  unfold processRepo stepSucceeds
  cases hc : createRepo cfg env repo with
  | error e => simp
  | ok r =>
    cases hcl : env.cloneAndPush repo r.SSHURL with
    | error e => simp [hcl]
    | ok u =>
      rcases h : (if cfg.Source.Content.Path ≠ "" then updateContent cfg env r
                  else ([], ContentResult.ok)) with ⟨evs, cres⟩
      cases cres <;> simp [hcl, h]

/-- After a successful create and clone, the loop body never asks to
continue: it breaks or the process dies in the content step. -/
theorem processRepo_not_cont (cfg : Configuration) (env : Env) (repo : Repository)
    (h : stepSucceeds cfg env repo = true) :
    (processRepo cfg env repo).2 ≠ RunStatus.cont := by
  intro hcont
  rw [(processRepo_cont_iff cfg env repo).mp hcont] at h
  cases h

/-- Claim C1, counterexample: a run where only the final UpdateFile
commit is rejected ends in the process termination of log.Fatal, and the
archive step, although configured, never runs; the content update error
is not recoverable and the run does not continue. -/
theorem contentCommitFailure_terminates_process :
    (mainLoop cfgC1 envC1 [repoA]).2 = RunOutcome.fatalExit "commit rejected" ∧
      cfgC1.Source.Archive = true ∧
      Event.archiveCalled "a" ∉ (mainLoop cfgC1 envC1 [repoA]).1 := by decide

/-- Claim C1 as amended: when the content update step reaches UpdateFile
and the commit is rejected, the failure is logged fatally and the
process terminates at once, whatever candidates or configured steps
remain. -/
theorem updateFile_rejection_terminates (cfg : Configuration) (env : Env)
    (repo r : Repository) (rest : List Repository) (c : RepositoryContent)
    (content e : String)
    (hcreate : createRepo cfg env repo = Except.ok r)
    (hclone : env.cloneAndPush repo r.SSHURL = Except.ok ())
    (hpath : cfg.Source.Content.Path ≠ "")
    (hget : env.getContents cfg.Source.Organization r.Name cfg.Source.Content.Path =
      Except.ok c)
    (hdec : c.GetContent = Except.ok content)
    (hupd : ∀ o, env.updateFile cfg.Source.Organization r.Name cfg.Source.Content.Path o =
      Except.error e) :
    (mainLoop cfg env (repo :: rest)).2 = RunOutcome.fatalExit e ∧
      Event.fatalLogged e ∈ (mainLoop cfg env (repo :: rest)).1 := by
  have hu : updateContent cfg env r =
      ([Event.getContentsCalled r.Name,
        Event.updateFileCalled r.Name
          (newFileContent cfg.Source.Content.Message r.HTMLURL content),
        Event.fatalLogged e], ContentResult.fatal e) := by
    simp [updateContent, hget, hdec, hupd]
  have hp : processRepo cfg env repo =
      ([Event.createCalled repo.Name, Event.cloneCalled repo.Name,
        Event.getContentsCalled r.Name,
        Event.updateFileCalled r.Name
          (newFileContent cfg.Source.Content.Message r.HTMLURL content),
        Event.fatalLogged e], RunStatus.fatalExit e) := by
    simp [processRepo, hcreate, hclone, hpath, hu]
  simp [mainLoop, hp]

/-- Claim C1, witness: the amended theorem at the concrete fixtures. -/
theorem updateFile_rejection_terminates_witness :
    (mainLoop cfgC1 envC1 [repoA]).2 = RunOutcome.fatalExit "commit rejected" ∧
      Event.fatalLogged "commit rejected" ∈ (mainLoop cfgC1 envC1 [repoA]).1 :=
  updateFile_rejection_terminates cfgC1 envC1 repoA targetA []
    { GetContent := Except.ok "original", SHA := "sha1" } "original" "commit rejected"
    rfl rfl (by decide) rfl rfl (fun _ => rfl)

/-- Claim C2, counterexample: with two candidates where the create step
fails for the first, the loop body also runs on the second candidate, so
it does not run exactly once on the first regardless of step success. -/
theorem loop_continues_past_failed_first :
    mainLoop cfgPlain envC2 [repoA, repoB] =
        ([Event.createCalled "a", Event.errorLogged "name taken",
          Event.createCalled "b", Event.cloneCalled "b"], RunOutcome.normal) ∧
      Event.createCalled "b" ∈ (mainLoop cfgPlain envC2 [repoA, repoB]).1 := by decide

/-- Claim C2 as amended: the loop processes candidates in order, each
candidate whose create or clone and push step fails is logged and
skipped, and the loop exits after the first candidate for which both
steps succeed; if no candidate succeeds, every candidate is processed
and the run ends normally. -/
theorem mainLoop_processes_until_first_success (cfg : Configuration) (env : Env)
    (repos : List Repository) :
    mainLoop cfg env repos =
      match repos.dropWhile (fun r => !(stepSucceeds cfg env r)) with
      | [] =>
        (((repos.takeWhile (fun r => !(stepSucceeds cfg env r))).map
            (fun r => (processRepo cfg env r).1)).flatten, RunOutcome.normal)
      | r :: _ =>
        (((repos.takeWhile (fun r => !(stepSucceeds cfg env r))).map
            (fun r => (processRepo cfg env r).1)).flatten ++ (processRepo cfg env r).1,
         match (processRepo cfg env r).2 with
         | RunStatus.fatalExit e => RunOutcome.fatalExit e
         | _ => RunOutcome.normal) := by
  induction repos with
  | nil => rfl
  | cons x rest ih =>
    cases hx : stepSucceeds cfg env x with
    | false =>
      have hcont : (processRepo cfg env x).2 = RunStatus.cont :=
        (processRepo_cont_iff cfg env x).mpr hx
      rcases hp : processRepo cfg env x with ⟨evs, st⟩
      rw [hp] at hcont
      simp only at hcont
      subst hcont
      rw [List.takeWhile_cons, List.dropWhile_cons]
      simp only [hx, Bool.not_false, if_true, reduceIte]
      simp only [mainLoop, hp]
      rw [ih]
      cases hd : rest.dropWhile (fun r => !(stepSucceeds cfg env r)) with
      | nil => simp [hp]
      | cons r tl => simp [hp, List.append_assoc]
    | true =>
      have hne : (processRepo cfg env x).2 ≠ RunStatus.cont :=
        processRepo_not_cont cfg env x hx
      rcases hp : processRepo cfg env x with ⟨evs, st⟩
      rw [hp] at hne
      simp only at hne
      rw [List.takeWhile_cons, List.dropWhile_cons]
      simp only [hx, Bool.not_true, reduceIte]
      cases st with
      | cont => exact absurd rfl hne
      | brk => simp [mainLoop, hp]
      | fatalExit e => simp [mainLoop, hp]

/-- The paging loop against a two page server returns no result at any
fuel: every iteration refetches the first page with zero valued options
and sees a nonzero next page, so the Go loop never leaves. -/
theorem listLoop_twoPages_none (fuel : Nat) :
    ∀ (opts : RepositoryListByOrgOptions) (acc : List Repository),
      listLoop (pagesFetch twoPages) opts fuel acc = none := by
  induction fuel with
  | zero => intro opts acc; rfl
  | succ n ih =>
    intro opts acc
    simp only [listLoop, pagesFetch, twoPages]
    norm_num
    exact ih _ _

/-- Claim C3: against a listing that spans two pages, listRepositoriesByOrg
never terminates, at any iteration bound, instead of returning the union
of the pages; the page advancing options are never passed to the fetch
call, so the first page is refetched forever. -/
theorem pagination_never_terminates_on_two_pages (fuel : Nat) :
    listRepositoriesByOrg (pagesFetch twoPages) cfgPlain fuel = none := by
  unfold listRepositoriesByOrg
  rw [listLoop_twoPages_none]

/-- Claim C4, counterexample: a configuration file that reads fine but
does not parse still loads successfully, with no error returned, because
the parse error of the unmarshal step is discarded. -/
theorem malformed_config_loads_successfully :
    loadConfiguration readFileC4 unmarshalC4 "config.yml" = Except.ok default ∧
      (unmarshalC4 "][ not yaml").2.isSome = true :=
  ⟨rfl, rfl⟩

/-- Claim C4 as amended: loading fails with an error exactly when the
file is unreadable; malformed contents are accepted silently, the
loader returning whatever value the parse produced. -/
theorem loadConfiguration_fails_iff_read_fails
    (readFile : String → Except String String)
    (unmarshal : String → Configuration × Option String) (p : String) :
    (∀ e, loadConfiguration readFile unmarshal p = Except.error e ↔
      readFile p = Except.error e) ∧
    (∀ content, readFile p = Except.ok content →
      loadConfiguration readFile unmarshal p = Except.ok (unmarshal content).1) := by
  constructor
  · intro e
    cases h : readFile p <;> simp [loadConfiguration, h]
  · intro content h
    simp [loadConfiguration, h]

/-- Claim C5, counterexample: on the specification example template, URL
and original content, the body the code composes differs from the
rendered message followed by a blank line and the original content: the
separator is not a double line break. -/
theorem newFileContent_not_blank_line :
    newFileContent "Migrated. \x7b\x7burl\x7d\x7d" "https://h/org/r" "X" ≠
      specNewFileContent "Migrated. \x7b\x7burl\x7d\x7d" "https://h/org/r" "X" := by decide

/-- Claim C5 as amended: the placeholder in the template is replaced by
the target HTML URL, and the composed body is the rendered message, the
literal eight characters of two HTML break tags, then the original
content. -/
theorem newFileContent_br_separator :
    (stringsReplace "Migrated. \x7b\x7burl\x7d\x7d" "\x7b\x7burl\x7d\x7d" "https://h/org/r" =
      "Migrated. https://h/org/r") ∧
    (newFileContent "Migrated. \x7b\x7burl\x7d\x7d" "https://h/org/r" "X" =
      "Migrated. https://h/org/r<br><br>X") ∧
    ∀ template url original, newFileContent template url original =
      stringsReplace template "\x7b\x7burl\x7d\x7d" url ++ "<br><br>" ++ original :=
  ⟨by decide, by decide, fun _ _ _ => rfl⟩

/-- Claim C6: in a run whose archive Edit call is denied, the archive
operation returns the error, yet the run logs nothing: the trace holds
the three calls and no errorLogged or fatalLogged event, because main
discards the value archiveRepo returns and tests the stale clone
error. -/
theorem archive_error_silently_discarded :
    mainLoop cfgC6 envC6 [repoA] =
        ([Event.createCalled "a", Event.cloneCalled "a", Event.archiveCalled "a"],
         RunOutcome.normal) ∧
      (archiveRepo cfgC6 envC6 repoA).2 = Except.error "permission denied" :=
  ⟨by decide, rfl⟩

/-- Claim C7: the filtering step keeps no repository whose name is in
the ignore list, keeps every repository whose name is not, and is a
sublist of the input, preserving the original relative order. -/
theorem filter_excludes_ignored (I : List String) (L : List Repository) :
    ((filterRepos I L).all (fun r => !(contains I r.Name)) = true) ∧
    (∀ r, r ∈ L → contains I r.Name = false → r ∈ filterRepos I L) ∧
    List.Sublist (filterRepos I L) L := by
  induction L with
  | nil =>
    refine ⟨rfl, ?_, List.Sublist.refl _⟩
    intro r h
    cases h
  | cons x rest ih =>
    cases hx : contains I x.Name with
    | false =>
      refine ⟨?_, ?_, ?_⟩
      · simp [filterRepos, hx, ih.1]
      · intro r hr hc
        rcases List.mem_cons.mp hr with h | h
        · subst h; simp [filterRepos, hx]
        · simp [filterRepos, hx]
          exact Or.inr (ih.2.1 r h hc)
      · simp only [filterRepos, hx, Bool.not_false, if_true, reduceIte]
        exact List.Sublist.cons₂ x ih.2.2
    | true =>
      refine ⟨?_, ?_, ?_⟩
      · simp [filterRepos, hx, ih.1]
      · intro r hr hc
        rcases List.mem_cons.mp hr with h | h
        · subst h; rw [hx] at hc; cases hc
        · simp only [filterRepos, hx]
          simpa using ih.2.1 r h hc
      · simp only [filterRepos, hx, Bool.not_true, reduceIte]
        exact List.Sublist.cons x ih.2.2

/-- Claim C8: the create request copies name, description, homepage and
the private flag from the source descriptor and sets issues, projects,
wiki, rebase merge and squash merge to false, never true, whatever the
source holds; createRepo sends exactly this options value. -/
theorem createRepo_request_fields (cfg : Configuration) (env : Env) (repo : Repository) :
    createRepo cfg env repo = env.create cfg.Target.Organization (createRepoOpts repo) ∧
    (createRepoOpts repo).Name = repo.Name ∧
    (createRepoOpts repo).Description = repo.Description ∧
    (createRepoOpts repo).Homepage = repo.Homepage ∧
    (createRepoOpts repo).Private = repo.Private ∧
    (createRepoOpts repo).HasIssues = false ∧
    (createRepoOpts repo).HasProjects = false ∧
    (createRepoOpts repo).HasWiki = false ∧
    (createRepoOpts repo).AllowRebaseMerge = false ∧
    (createRepoOpts repo).AllowSquashMerge = false :=
  ⟨rfl, rfl, rfl, rfl, rfl, rfl, rfl, rfl, rfl, rfl⟩

/-- Claim C9: when the clone and push step fails for a candidate, the
iteration emits exactly the create call, the clone call and the logged
error, no content update or archive call among them, and asks to move
to the next candidate. -/
theorem cloneFailure_skips_content_and_archive (cfg : Configuration) (env : Env)
    (repo r : Repository) (e : String)
    (hcreate : createRepo cfg env repo = Except.ok r)
    (hclone : env.cloneAndPush repo r.SSHURL = Except.error e) :
    (processRepo cfg env repo).1 =
        [Event.createCalled repo.Name, Event.cloneCalled repo.Name, Event.errorLogged e] ∧
      ((processRepo cfg env repo).1.all (fun ev => !(isContentOrArchive ev)) = true) ∧
      (processRepo cfg env repo).2 = RunStatus.cont := by
  simp [processRepo, hcreate, hclone, isContentOrArchive]

/-- Claim C9, witness: the theorem at a concrete remote whose clone and
push step fails, under a configuration with both optional steps on. -/
theorem cloneFailure_skips_content_and_archive_witness :
    (processRepo cfgC1 envC9 repoA).1 =
        [Event.createCalled "a", Event.cloneCalled "a", Event.errorLogged "auth failed"] ∧
      ((processRepo cfgC1 envC9 repoA).1.all (fun ev => !(isContentOrArchive ev)) = true) ∧
      (processRepo cfgC1 envC9 repoA).2 = RunStatus.cont :=
  cloneFailure_skips_content_and_archive cfgC1 envC9 repoA targetA "auth failed" rfl rfl

/-- Claim C10: after the first candidate for which create and clone and
push both succeed, the run is unchanged by whatever candidates follow:
they are never created, cloned, pushed, updated or archived, so at most
one repository completes a migration per run. -/
theorem later_candidates_unobserved (cfg : Configuration) (env : Env)
    (pre : List Repository) (repo : Repository) (rest rest2 : List Repository)
    (hpre : ∀ x ∈ pre, stepSucceeds cfg env x = false)
    (hrepo : stepSucceeds cfg env repo = true) :
    mainLoop cfg env (pre ++ repo :: rest) = mainLoop cfg env (pre ++ repo :: rest2) := by
  induction pre with
  | nil =>
    have hne : (processRepo cfg env repo).2 ≠ RunStatus.cont :=
      processRepo_not_cont cfg env repo hrepo
    rcases hp : processRepo cfg env repo with ⟨evs, st⟩
    rw [hp] at hne
    simp only at hne
    cases st with
    | cont => exact absurd rfl hne
    | brk => simp [mainLoop, hp]
    | fatalExit e => simp [mainLoop, hp]
  | cons x pre2 ih =>
    have hx : stepSucceeds cfg env x = false := hpre x (List.mem_cons_self x pre2)
    have hcont : (processRepo cfg env x).2 = RunStatus.cont :=
      (processRepo_cont_iff cfg env x).mpr hx
    rcases hp : processRepo cfg env x with ⟨evs, st⟩
    rw [hp] at hcont
    simp only at hcont
    subst hcont
    have ih2 := ih (fun y hy => hpre y (List.mem_cons_of_mem x hy))
    simp [mainLoop, hp, ih2]

/-- Claim C10, witness: with the first candidate failing and the second
succeeding, the run over three candidates equals the run over the first
two; the third is never touched. -/
theorem later_candidates_unobserved_witness :
    mainLoop cfgPlain envC2 [repoA, repoB, repoX] = mainLoop cfgPlain envC2 [repoA, repoB] :=
  later_candidates_unobserved cfgPlain envC2 [repoA] repoB [repoX] []
    (fun x hx => by cases List.mem_singleton.mp hx; decide) (by decide)

end Ghmgr
